import Mathlib

/-!
Shallow embedding of the RFC-34 test program (`src/src/main.rs`):
the origin-resolution barrier `NewWithComputedOrigin::should_execute` and the
location encoder `NewDescribeFamily::describe_location`, together with the
XCM v3 location arithmetic they invoke (`Junctions::global_consensus`,
`Junctions::relative_to`, `MultiLocation::prepend_with` / `prepended_with`,
`Junctions::within_global`, `MultiLocation::append_with`) and the
pre-extension encoder `DescribeFamily` used by the legacy barrier.

Machine integers are modelled as `Nat`; the bounds the Rust types impose
(`u8` parents, the 8-junction arity cap of `Junctions`) appear as the explicit
checks the library code performs.  Byte strings are `List Nat`.
-/

/-- `NetworkId` (the variants this repository uses; the upstream enum has
further variants, none of which occur in the program).  SCALE variant indices:
`Polkadot = 2`, `Kusama = 3`, `Westend = 4`, `Rococo = 5`. -/
inductive NetworkId where
  | Polkadot
  | Kusama
  | Westend
  | Rococo
deriving DecidableEq, Repr

/-- `BodyId` (variants used by the program). -/
inductive BodyId where
  | Unit
  | Index (i : Nat)
deriving DecidableEq, Repr

/-- `BodyPart` (variants used by the program). -/
inductive BodyPart where
  | Voice
  | Members (count : Nat)
deriving DecidableEq, Repr

/-- `Junction` (the variants the program touches; others are opaque to both
the resolver and the encoder, which only inspect `Parachain` and
`GlobalConsensus`). -/
inductive Junction where
  | Parachain (index : Nat)
  | AccountId32 (network : Option NetworkId) (id : List Nat)
  | PalletInstance (index : Nat)
  | GlobalConsensus (network : NetworkId)
  | Plurality (id : BodyId) (part : BodyPart)
  | OnlyChild
deriving DecidableEq, Repr

/-- XCM v3 `MAX_JUNCTIONS`: `Junctions` holds at most 8 junctions. -/
def maxJunctions : Nat := 8

/-- `MultiLocation { parents: u8, interior: Junctions }`.  The interior is a
list; the structural 8-junction bound of `Junctions` shows up as the explicit
capacity checks in the operations below. -/
structure MultiLocation where
  parents : Nat
  interior : List Junction
deriving DecidableEq, Repr

/-- `Junctions::global_consensus`: `Ok(network)` iff the first junction is
`GlobalConsensus(network)`. -/
def globalConsensus (js : List Junction) : Option NetworkId :=
  match js.head? with
  | some (Junction.GlobalConsensus n) => some n
  | _ => none

/-- `Junctions::relative_to(self, viewer)`: strip the common leading junctions
of `self` and `viewer`; the result has `parents` = junctions left of `viewer`
and `interior` = junctions left of `self`. -/
def relativeTo : List Junction → List Junction → MultiLocation
  | x :: xs, y :: ys =>
      if x = y then relativeTo xs ys
      else { parents := (y :: ys).length, interior := x :: xs }
  | s, v => { parents := v.length, interior := s }

/-- `Junctions::push`: append one junction, failing at the arity cap. -/
def pushJunction (js : List Junction) (j : Junction) : Option (List Junction) :=
  if js.length < maxJunctions then some (js ++ [j]) else none

/-- Push a list of junctions one by one (the `for j in ... { self.push(j)? }`
loops of the library code). -/
def pushAll : List Junction → List Junction → Option (List Junction)
  | js, [] => some js
  | js, j :: rest =>
      match pushJunction js j with
      | some js2 => pushAll js2 rest
      | none => none

/-- Drop the last `n` junctions (the `take_last` loops). -/
def dropLastN : Nat → List Junction → List Junction
  | 0, js => js
  | n + 1, js => dropLastN n js.dropLast

/-- `MultiLocation::prepend_with` / `prepended_with(self, prefix)`:
fails if the combined interior would exceed 8 junctions or the combined
parents would exceed 255; otherwise cancels each trailing junction of the
prefix interior against one of `self`'s parents and concatenates.
The cancellation loop removes `min self.parents |prefix.interior|` items. -/
def prependWith (self pfx : MultiLocation) : Option MultiLocation :=
  let prependInterior := pfx.interior.length - self.parents
  let finalInterior := self.interior.length + prependInterior
  if maxJunctions < finalInterior then none
  else
    let suffixParents := self.parents - pfx.interior.length
    let finalParents := pfx.parents + suffixParents
    if 255 < finalParents then none
    else
      let d := min self.parents pfx.interior.length
      some { parents := (self.parents - d) + pfx.parents,
             interior := pfx.interior.take (pfx.interior.length - d) ++ self.interior }

/-- `Junctions::within_global(self, relative)`: treating `self` as the
universal context, ascend `relative.parents` levels (failing if that would
consume all of `self`) and then push `relative.interior`. -/
def withinGlobal (self : List Junction) (relative : MultiLocation) : Option (List Junction) :=
  if self.length ≤ relative.parents then none
  else pushAll (dropLastN relative.parents self) relative.interior

/-- `MultiLocation::append_with(self, suffix)`: append the suffix junctions,
failing (without truncation) if the result would exceed the arity cap. -/
def appendWith (self : MultiLocation) (suffix : List Junction) : Option MultiLocation :=
  if maxJunctions < self.interior.length + suffix.length then none
  else some { self with interior := self.interior ++ suffix }

/-- `Weight { ref_time, proof_size }`. -/
structure Weight where
  refTime : Nat
  proofSize : Nat
deriving DecidableEq, Repr

/-- `ProcessMessageError`. -/
inductive ProcessMessageError where
  | BadFormat
  | Corrupt
  | Unsupported
  | Overweight (w : Weight)
  | Yield
  | StackLimitReached
deriving DecidableEq, Repr

/-- `Properties { weight_credit, message_id }`. -/
structure Properties where
  weightCredit : Weight
  messageId : Option (List Nat)
deriving DecidableEq, Repr

/-- `OriginKind` (variants used by the program). -/
inductive OriginKind where
  | Native
  | SovereignAccount
  | Superuser
  | Xcm
deriving DecidableEq, Repr

/-- `Instruction` (the variants the demo uses; the resolver only distinguishes
`UniversalOrigin` and `DescendOrigin` from everything else). -/
inductive Instruction where
  | UniversalOrigin (junction : Junction)
  | DescendOrigin (interior : List Junction)
  | Transact (originKind : OriginKind) (requireWeightAtMost : Weight) (call : List Nat)
  | ClearOrigin
deriving DecidableEq, Repr

/-- The origin-affecting instruction tags (spec §3): `UniversalOrigin` and
`DescendOrigin`; everything else terminates the prefix scan. -/
def isOriginAffecting : Instruction → Bool
  | Instruction.UniversalOrigin _ => true
  | Instruction.DescendOrigin _ => true
  | _ => false

/-- The `UniversalOrigin` arm of `NewWithComputedOrigin::should_execute`
(the NEW CODE block, `main.rs` lines 52–63):
`X1(GlobalConsensus(LocalUniversal::get().global_consensus()?))
  .within_global(actual_origin
     .prepended_with(LocalUniversal::get().relative_to(&X1(*new_global)))?)?
  .into_location()`
with each failure mapped to `Unsupported` (here: `none`). -/
def universalOriginCompute (localUniversal : List Junction) (actualOrigin : MultiLocation)
    (newGlobal : Junction) : Option MultiLocation :=
  match globalConsensus localUniversal with
  | none => none
  | some g =>
      match prependWith actualOrigin (relativeTo localUniversal [newGlobal]) with
      | none => none
      | some pre =>
          match withinGlobal [Junction.GlobalConsensus g] pre with
          | none => none
          | some js => some { parents := 0, interior := js }

/-- Outcome of processing one instruction in the scan closure: continue with a
new working origin, break out of the loop, or abort with `Unsupported`. -/
inductive ScanStep where
  | cont (o : MultiLocation)
  | halt
  | unsupported
deriving DecidableEq, Repr

/-- One iteration of the closure passed to `match_next_inst_while`
(`main.rs` lines 38–76). -/
def resolveStep (localUniversal : List Junction) (o : MultiLocation) :
    Instruction → ScanStep
  | Instruction.UniversalOrigin g =>
      match universalOriginCompute localUniversal o g with
      | some o2 => ScanStep.cont o2
      | none => ScanStep.unsupported
  | Instruction.DescendOrigin j =>
      match appendWith o j with
      | some o2 => ScanStep.cont o2
      | none => ScanStep.unsupported
  | _ => ScanStep.halt

/-- The `match_next_inst_while` loop of `should_execute`: while fewer than
`maxPrefixes` instructions have been consumed and instructions remain, process
the next instruction; `cont` consumes it (incrementing `skipped`), `halt`
stops without consuming, `unsupported` aborts.  Returns the final working
origin and the consumed count. -/
def prefixScan (localUniversal : List Junction) (maxPrefixes : Nat) :
    MultiLocation → List Instruction → Nat → Option (MultiLocation × Nat)
  | o, insts, skipped =>
    if skipped < maxPrefixes then
      match insts with
      | [] => some (o, skipped)
      | i :: rest =>
          match resolveStep localUniversal o i with
          | ScanStep.cont o2 => prefixScan localUniversal maxPrefixes o2 rest (skipped + 1)
          | ScanStep.halt => some (o, skipped)
          | ScanStep.unsupported => none
    else some (o, skipped)

/-- `NewWithComputedOrigin::<Inner, LocalUniversal, MaxPrefixes>::should_execute`
(`main.rs` lines 28–84): run the prefix scan from the caller's origin and
`skipped = 0`; on failure return `Err(Unsupported)`, otherwise delegate to the
inner barrier with the corrected origin, the instruction suffix
`instructions[skipped..]`, the same weight and the same properties. -/
def shouldExecute
    (inner : MultiLocation → List Instruction → Weight → Properties →
      Except ProcessMessageError Unit)
    (localUniversal : List Junction) (maxPrefixes : Nat)
    (origin : MultiLocation) (instructions : List Instruction)
    (maxWeight : Weight) (props : Properties) : Except ProcessMessageError Unit :=
  match prefixScan localUniversal maxPrefixes origin instructions 0 with
  | none => Except.error ProcessMessageError.Unsupported
  | some (o, skipped) => inner o (instructions.drop skipped) maxWeight props

/-- `RelayUniversalLocation = X1(GlobalConsensus(Kusama))` (`main.rs` line 135). -/
def RelayUniversalLocation : List Junction := [Junction.GlobalConsensus NetworkId.Kusama]

/-- `ParaUniversalLocation = X2(GlobalConsensus(Kusama), Parachain(1000))`
(`main.rs` line 136). -/
def ParaUniversalLocation : List Junction :=
  [Junction.GlobalConsensus NetworkId.Kusama, Junction.Parachain 1000]

/-- ASCII bytes of the `b"ChildChain"` tag (a `[u8; 10]`, SCALE-encoded raw). -/
def childChainTag : List Nat := [67, 104, 105, 108, 100, 67, 104, 97, 105, 110]

/-- ASCII bytes of the `b"SiblingChain"` tag. -/
def siblingChainTag : List Nat := [83, 105, 98, 108, 105, 110, 103, 67, 104, 97, 105, 110]

/-- ASCII bytes of the `b"ParentChain"` tag. -/
def parentChainTag : List Nat := [80, 97, 114, 101, 110, 116, 67, 104, 97, 105, 110]

/-- ASCII bytes of the `b"UniversalLocation"` tag. -/
def universalLocationTag : List Nat :=
  [85, 110, 105, 118, 101, 114, 115, 97, 108, 76, 111, 99, 97, 116, 105, 111, 110]

/-- ASCII bytes of the `b"Parachain"` sub-tag. -/
def parachainTag : List Nat := [80, 97, 114, 97, 99, 104, 97, 105, 110]

/-- SCALE compact encoding of a `u32` (`Compact::<u32>`): single-byte mode
below `2^6`, two-byte mode below `2^14`, four-byte mode below `2^30`,
otherwise the big-integer mode with marker byte `0b11` and four
little-endian payload bytes. -/
def compactEncode (n : Nat) : List Nat :=
  if n < 64 then [n * 4 % 256]
  else if n < 16384 then
    [(n * 4 + 1) % 256, (n * 4 + 1) / 256 % 256]
  else if n < 1073741824 then
    [(n * 4 + 2) % 256, (n * 4 + 2) / 256 % 256,
     (n * 4 + 2) / 65536 % 256, (n * 4 + 2) / 16777216 % 256]
  else
    [3, n % 256, n / 256 % 256, n / 65536 % 256, n / 16777216 % 256]

/-- SCALE encoding of a `Vec<u8>`: compact length followed by the bytes. -/
def encodeVecU8 (v : List Nat) : List Nat := compactEncode v.length ++ v

/-- SCALE encoding of `NetworkId` (variant index byte; all modelled variants
are payload-free). -/
def encodeNetworkId : NetworkId → List Nat
  | NetworkId.Polkadot => [2]
  | NetworkId.Kusama => [3]
  | NetworkId.Westend => [4]
  | NetworkId.Rococo => [5]

/-- The pre-extension encoder `DescribeFamily::describe_location` from
`staging_xcm_builder`, the reference of `LegacyDeriveAccountBarrier`
(`main.rs` lines 179–182): shapes 1–3 only.  A tuple `.encode()` is the
concatenation of the components' encodings; the inner `Vec<u8>` from the
suffix encoder is length-prefixed. -/
def describeFamily (suffix : MultiLocation → Option (List Nat)) (l : MultiLocation) :
    Option (List Nat) :=
  match l.parents, l.interior.head? with
  | 0, some (Junction.Parachain index) =>
      match suffix { parents := 0, interior := l.interior.tail } with
      | some interior => some (childChainTag ++ compactEncode index ++ encodeVecU8 interior)
      | none => none
  | 1, some (Junction.Parachain index) =>
      match suffix { parents := 0, interior := l.interior.tail } with
      | some interior => some (siblingChainTag ++ compactEncode index ++ encodeVecU8 interior)
      | none => none
  | 1, _ =>
      match suffix { parents := 0, interior := l.interior } with
      | some interior => some (parentChainTag ++ encodeVecU8 interior)
      | none => none
  | _, _ => none

/-- `NewDescribeFamily::describe_location` (`main.rs` lines 88–131): the three
legacy shapes plus the NEW CODE arm for `parents = 0` with a leading
`GlobalConsensus` followed by a `Parachain`. -/
def newDescribeFamily (suffix : MultiLocation → Option (List Nat)) (l : MultiLocation) :
    Option (List Nat) :=
  match l.parents, l.interior.head? with
  | 0, some (Junction.Parachain index) =>
      match suffix { parents := 0, interior := l.interior.tail } with
      | some interior => some (childChainTag ++ compactEncode index ++ encodeVecU8 interior)
      | none => none
  | 1, some (Junction.Parachain index) =>
      match suffix { parents := 0, interior := l.interior.tail } with
      | some interior => some (siblingChainTag ++ compactEncode index ++ encodeVecU8 interior)
      | none => none
  | 1, _ =>
      match suffix { parents := 0, interior := l.interior } with
      | some interior => some (parentChainTag ++ encodeVecU8 interior)
      | none => none
  | 0, some (Junction.GlobalConsensus networkId) =>
      match l.interior.tail.head? with
      | some (Junction.Parachain index) =>
          match suffix { parents := 0, interior := l.interior.tail.tail } with
          | some interior =>
              some (universalLocationTag ++ encodeNetworkId networkId ++ parachainTag ++
                compactEncode index ++ encodeVecU8 interior)
          | none => none
      | _ => none
  | _, _ => none

/-- Does the interior start with a `Parachain` junction? -/
def leadingParachain : List Junction → Bool
  | Junction.Parachain _ :: _ => true
  | _ => false

/-- Recognized shape 1 of the encoder grammar: `parents = 0`, leading `Parachain`. -/
def shape1 (l : MultiLocation) : Bool := l.parents == 0 && leadingParachain l.interior

/-- Recognized shape 2: `parents = 1`, leading `Parachain`. -/
def shape2 (l : MultiLocation) : Bool := l.parents == 1 && leadingParachain l.interior

/-- Recognized shape 3: `parents = 1`, no leading `Parachain`. -/
def shape3 (l : MultiLocation) : Bool := l.parents == 1 && !leadingParachain l.interior

/-- Recognized shape 4 (the extension): `parents = 0`, leading
`GlobalConsensus` followed by a `Parachain`. -/
def shape4 (l : MultiLocation) : Bool :=
  l.parents == 0 &&
    (match l.interior with
     | Junction.GlobalConsensus _ :: Junction.Parachain _ :: _ => true
     | _ => false)

/-- The demo's weight value (`Weight::from_parts(100, 100)`). -/
def w0 : Weight := { refTime := 100, proofSize := 100 }

/-- The demo's properties value. -/
def p0 : Properties := { weightCredit := w0, messageId := none }

/-- An inner barrier that accepts everything. -/
def innerOk : MultiLocation → List Instruction → Weight → Properties →
    Except ProcessMessageError Unit :=
  fun _ _ _ _ => Except.ok ()

/-- An inner barrier that rejects everything with `BadFormat` (to observe that
inner errors pass through unchanged). -/
def innerBad : MultiLocation → List Instruction → Weight → Properties →
    Except ProcessMessageError Unit :=
  fun _ _ _ _ => Except.error ProcessMessageError.BadFormat

/-- A trivial suffix encoder accepting every location with an empty byte string. -/
def suffixConst : MultiLocation → Option (List Nat) := fun _ => some []

/-- The demo's `instructions_with_universal` prefix with the `Transact`
terminator replaced by `ClearOrigin` (any non-origin-affecting tag). -/
def instsDemo : List Instruction :=
  [Instruction.UniversalOrigin (Junction.GlobalConsensus NetworkId.Kusama),
   Instruction.DescendOrigin [Junction.Plurality (BodyId.Index 0) BodyPart.Voice],
   Instruction.ClearOrigin]

/-- The working origin after the `UniversalOrigin` step in both demo runs. -/
def midDemo : MultiLocation :=
  { parents := 0,
    interior := [Junction.GlobalConsensus NetworkId.Kusama, Junction.Parachain 2125] }

/-- The resolved origin for both demo runs. -/
def resolvedDemo : MultiLocation :=
  { parents := 0,
    interior := [Junction.GlobalConsensus NetworkId.Kusama, Junction.Parachain 2125,
                 Junction.Plurality (BodyId.Index 0) BodyPart.Voice] }

theorem prefixScan_stop {lu : List Junction} {mp : Nat} {o : MultiLocation}
    {insts : List Instruction} {s : Nat} (h : ¬ s < mp) :
    prefixScan lu mp o insts s = some (o, s) := by
  unfold prefixScan; simp [h]

theorem prefixScan_nil {lu : List Junction} {mp : Nat} {o : MultiLocation} {s : Nat} :
    prefixScan lu mp o [] s = some (o, s) := by
  unfold prefixScan; split <;> rfl

theorem prefixScan_cont {lu : List Junction} {mp : Nat} {o o2 : MultiLocation}
    {i : Instruction} {rest : List Instruction} {s : Nat}
    (h : s < mp) (hstep : resolveStep lu o i = ScanStep.cont o2) :
    prefixScan lu mp o (i :: rest) s = prefixScan lu mp o2 rest (s + 1) := by
  conv_lhs => unfold prefixScan
  simp [h, hstep]

theorem prefixScan_halt {lu : List Junction} {mp : Nat} {o : MultiLocation}
    {i : Instruction} {rest : List Instruction} {s : Nat}
    (h : s < mp) (hstep : resolveStep lu o i = ScanStep.halt) :
    prefixScan lu mp o (i :: rest) s = some (o, s) := by
  unfold prefixScan; simp [h, hstep]

theorem prefixScan_err {lu : List Junction} {mp : Nat} {o : MultiLocation}
    {i : Instruction} {rest : List Instruction} {s : Nat}
    (h : s < mp) (hstep : resolveStep lu o i = ScanStep.unsupported) :
    prefixScan lu mp o (i :: rest) s = none := by
  unfold prefixScan; simp [h, hstep]

theorem halt_of_not_affecting {lu : List Junction} {o : MultiLocation} {i : Instruction}
    (h : isOriginAffecting i = false) : resolveStep lu o i = ScanStep.halt := by
  cases i <;> simp [isOriginAffecting] at h <;> rfl

theorem not_affecting_of_halt {lu : List Junction} {o : MultiLocation} {i : Instruction}
    (h : resolveStep lu o i = ScanStep.halt) : isOriginAffecting i = false := by
  cases i with
  | UniversalOrigin g =>
      exfalso
      cases h2 : universalOriginCompute lu o g <;> simp [resolveStep, h2] at h
  | DescendOrigin j =>
      exfalso
      cases h2 : appendWith o j <;> simp [resolveStep, h2] at h
  | Transact a b c => rfl
  | ClearOrigin => rfl

theorem affecting_of_cont {lu : List Junction} {o o2 : MultiLocation} {i : Instruction}
    (h : resolveStep lu o i = ScanStep.cont o2) : isOriginAffecting i = true := by
  cases i with
  | UniversalOrigin g => rfl
  | DescendOrigin j => rfl
  | Transact a b c => simp [resolveStep] at h
  | ClearOrigin => simp [resolveStep] at h

theorem drop_eq_cons_of_get {α : Type} :
    ∀ (l : List α) (k : Nat) (a : α), l.get? k = some a →
      List.drop k l = a :: List.drop (k + 1) l := by
  intro l
  induction l with
  | nil => intro k a h; simp at h
  | cons x xs ih =>
      intro k a h
      cases k with
      | zero => simp at h; simp [h]
      | succ k2 =>
          simp only [List.get?] at h
          simpa using ih k2 a h

theorem prefixScan_count_le {lu : List Junction} {mp : Nat} :
    ∀ (insts : List Instruction) (o : MultiLocation) (s : Nat) (o2 : MultiLocation) (k : Nat),
      prefixScan lu mp o insts s = some (o2, k) → k ≤ max s mp := by
  intro insts
  induction insts with
  | nil =>
      intro o s o2 k h
      rw [prefixScan_nil] at h
      cases h
      omega
  | cons i rest ih =>
      intro o s o2 k h
      by_cases hs : s < mp
      · cases hr : resolveStep lu o i with
        | cont o1 =>
            rw [prefixScan_cont hs hr] at h
            have := ih o1 (s + 1) o2 k h
            omega
        | halt =>
            rw [prefixScan_halt hs hr] at h
            cases h
            omega
        | unsupported =>
            rw [prefixScan_err hs hr] at h
            cases h
      · rw [prefixScan_stop hs] at h
        cases h
        omega

theorem prefixScan_stops_aux {lu : List Junction} {mp : Nat} :
    ∀ (insts : List Instruction) (o : MultiLocation) (s : Nat) (o2 : MultiLocation) (k : Nat),
      prefixScan lu mp o insts s = some (o2, k) →
      s ≤ k ∧
      (k < mp → ∀ i, insts.get? (k - s) = some i → isOriginAffecting i = false) ∧
      (∀ m i, m < k - s → insts.get? m = some i → isOriginAffecting i = true) := by
  intro insts
  induction insts with
  | nil =>
      intro o s o2 k h
      rw [prefixScan_nil] at h
      cases h
      refine ⟨le_refl _, ?_, ?_⟩
      · intro _ i hi; simp at hi
      · intro m i hm; omega
  | cons i rest ih =>
      intro o s o2 k h
      by_cases hs : s < mp
      · cases hr : resolveStep lu o i with
        | cont o1 =>
            rw [prefixScan_cont hs hr] at h
            obtain ⟨hle, hlast, hall⟩ := ih o1 (s + 1) o2 k h
            refine ⟨by omega, ?_, ?_⟩
            · intro hk j hj
              have hd : k - s = (k - (s + 1)) + 1 := by omega
              rw [hd] at hj
              simp only [List.get?] at hj
              exact hlast hk j hj
            · intro m j hm hj
              cases m with
              | zero =>
                  simp at hj
                  subst hj
                  exact affecting_of_cont hr
              | succ m2 =>
                  simp only [List.get?] at hj
                  exact hall m2 j (by omega) hj
        | halt =>
            rw [prefixScan_halt hs hr] at h
            cases h
            refine ⟨le_refl _, ?_, ?_⟩
            · intro _ j hj
              simp at hj
              subst hj
              exact not_affecting_of_halt hr
            · intro m j hm; omega
        | unsupported =>
            rw [prefixScan_err hs hr] at h
            cases h
      · rw [prefixScan_stop hs] at h
        cases h
        refine ⟨le_refl _, ?_, ?_⟩
        · intro hk; omega
        · intro m j hm; omega

theorem prefixScan_extend {lu : List Junction} {mp : Nat} :
    ∀ (k : Nat) (insts : List Instruction) (o0 oW : MultiLocation) (s : Nat),
      prefixScan lu mp o0 (List.take k insts) s = some (oW, s + k) →
      prefixScan lu mp o0 insts s = prefixScan lu mp oW (List.drop k insts) (s + k) := by
  intro k
  induction k with
  | zero =>
      intro insts o0 oW s h
      simp only [List.take, prefixScan_nil] at h
      cases h
      simp
  | succ k2 ih =>
      intro insts o0 oW s h
      cases insts with
      | nil =>
          simp only [List.take_nil, prefixScan_nil] at h
          injection h with h2
          injection h2 with ha hb
          exfalso
          omega
      | cons i rest =>
          by_cases hs : s < mp
          · cases hr : resolveStep lu o0 i with
            | cont o1 =>
                rw [List.take_succ_cons, prefixScan_cont hs hr] at h
                rw [prefixScan_cont hs hr]
                have h2 : prefixScan lu mp o1 (List.take k2 rest) (s + 1) = some (oW, (s + 1) + k2) := by
                  rw [h]; congr 2; omega
                have := ih rest o1 oW (s + 1) h2
                rw [this, List.drop_succ_cons]
                congr 1
                omega
            | halt =>
                rw [List.take_succ_cons, prefixScan_halt hs hr] at h
                injection h with h2
                injection h2 with ha hb
                exfalso
                omega
            | unsupported =>
                rw [List.take_succ_cons, prefixScan_err hs hr] at h
                cases h
          · rw [prefixScan_stop hs] at h
            injection h with h2
            injection h2 with ha hb
            exfalso
            omega

/-- Claim C1: same-root rebasing.  For origin `parents=0, [Parachain 2125]`,
local universal `[GlobalConsensus Kusama]`, `max_prefix ≥ 2` and instructions
`UniversalOrigin(GlobalConsensus Kusama)`, `DescendOrigin([Plurality Index(0) Voice])`
followed by any non-origin-affecting instruction, the resolver hands the inner
check the origin `parents=0,
[GlobalConsensus Kusama, Parachain 2125, Plurality Index(0) Voice]` and
consumes exactly 2 instructions. -/
theorem c1_same_root_rebasing
    (mp : Nat) (hmp : 2 ≤ mp) (i3 : Instruction) (h3 : isOriginAffecting i3 = false)
    (inner : MultiLocation → List Instruction → Weight → Properties →
      Except ProcessMessageError Unit)
    (w : Weight) (p : Properties) :
    shouldExecute inner RelayUniversalLocation mp
      { parents := 0, interior := [Junction.Parachain 2125] }
      [Instruction.UniversalOrigin (Junction.GlobalConsensus NetworkId.Kusama),
       Instruction.DescendOrigin [Junction.Plurality (BodyId.Index 0) BodyPart.Voice],
       i3] w p
    = inner resolvedDemo [i3] w p := by
  have h0 : 0 < mp := by omega
  have h1 : 1 < mp := by omega
  have hs1 : resolveStep RelayUniversalLocation
      { parents := 0, interior := [Junction.Parachain 2125] }
      (Instruction.UniversalOrigin (Junction.GlobalConsensus NetworkId.Kusama))
      = ScanStep.cont midDemo := by
    decide
  have hs2 : resolveStep RelayUniversalLocation midDemo
      (Instruction.DescendOrigin [Junction.Plurality (BodyId.Index 0) BodyPart.Voice])
      = ScanStep.cont resolvedDemo := by decide
  have hscan : prefixScan RelayUniversalLocation mp
      { parents := 0, interior := [Junction.Parachain 2125] }
      [Instruction.UniversalOrigin (Junction.GlobalConsensus NetworkId.Kusama),
       Instruction.DescendOrigin [Junction.Plurality (BodyId.Index 0) BodyPart.Voice],
       i3] 0 = some (resolvedDemo, 2) := by
    rw [prefixScan_cont h0 hs1, prefixScan_cont h1 hs2]
    by_cases h2 : 2 < mp
    · exact prefixScan_halt h2 (halt_of_not_affecting h3)
    · exact prefixScan_stop h2
  unfold shouldExecute
  rw [hscan]
  rfl

/-- Witness for C1 at `max_prefix = 8` (the `RelayBarrier` configuration) with
the demo's weight, properties and a `ClearOrigin` terminator. -/
theorem c1_same_root_rebasing_witness :
    shouldExecute innerOk RelayUniversalLocation 8
      { parents := 0, interior := [Junction.Parachain 2125] } instsDemo w0 p0
    = innerOk resolvedDemo [Instruction.ClearOrigin] w0 p0 :=
  c1_same_root_rebasing 8 (by decide) Instruction.ClearOrigin (by decide) innerOk w0 p0

/-- Claim C2: nested-root rebasing.  For origin `parents=1, [Parachain 2125]`,
local universal `[GlobalConsensus Kusama, Parachain 1000]` and the same
two-instruction prefix, the resolver ascends past the local parachain and
hands the inner check `parents=0,
[GlobalConsensus Kusama, Parachain 2125, Plurality Index(0) Voice]`. -/
theorem c2_nested_root_rebasing
    (mp : Nat) (hmp : 2 ≤ mp) (i3 : Instruction) (h3 : isOriginAffecting i3 = false)
    (inner : MultiLocation → List Instruction → Weight → Properties →
      Except ProcessMessageError Unit)
    (w : Weight) (p : Properties) :
    shouldExecute inner ParaUniversalLocation mp
      { parents := 1, interior := [Junction.Parachain 2125] }
      [Instruction.UniversalOrigin (Junction.GlobalConsensus NetworkId.Kusama),
       Instruction.DescendOrigin [Junction.Plurality (BodyId.Index 0) BodyPart.Voice],
       i3] w p
    = inner resolvedDemo [i3] w p := by
  have h0 : 0 < mp := by omega
  have h1 : 1 < mp := by omega
  have hs1 : resolveStep ParaUniversalLocation
      { parents := 1, interior := [Junction.Parachain 2125] }
      (Instruction.UniversalOrigin (Junction.GlobalConsensus NetworkId.Kusama))
      = ScanStep.cont midDemo := by
    decide
  have hs2 : resolveStep ParaUniversalLocation midDemo
      (Instruction.DescendOrigin [Junction.Plurality (BodyId.Index 0) BodyPart.Voice])
      = ScanStep.cont resolvedDemo := by decide
  have hscan : prefixScan ParaUniversalLocation mp
      { parents := 1, interior := [Junction.Parachain 2125] }
      [Instruction.UniversalOrigin (Junction.GlobalConsensus NetworkId.Kusama),
       Instruction.DescendOrigin [Junction.Plurality (BodyId.Index 0) BodyPart.Voice],
       i3] 0 = some (resolvedDemo, 2) := by
    rw [prefixScan_cont h0 hs1, prefixScan_cont h1 hs2]
    by_cases h2 : 2 < mp
    · exact prefixScan_halt h2 (halt_of_not_affecting h3)
    · exact prefixScan_stop h2
  unfold shouldExecute
  rw [hscan]
  rfl

/-- Witness for C2 at `max_prefix = 8` (the `ParaBarrier` configuration). -/
theorem c2_nested_root_rebasing_witness :
    shouldExecute innerOk ParaUniversalLocation 8
      { parents := 1, interior := [Junction.Parachain 2125] } instsDemo w0 p0
    = innerOk resolvedDemo [Instruction.ClearOrigin] w0 p0 :=
  c2_nested_root_rebasing 8 (by decide) Instruction.ClearOrigin (by decide) innerOk w0 p0

/-- Claim C4: prefix bound.  Whenever the scan succeeds, the number of
consumed instructions is at most `max_prefix`, for every origin, instruction
sequence and bound. -/
theorem c4_prefix_bound {lu : List Junction} {mp : Nat} {o o2 : MultiLocation}
    {insts : List Instruction} {k : Nat}
    (h : prefixScan lu mp o insts 0 = some (o2, k)) : k ≤ mp := by
  have := prefixScan_count_le insts o 0 o2 k h
  omega

/-- Witness for C4: with `max_prefix = 1` the demo message consumes exactly
one instruction. -/
theorem c4_prefix_bound_witness : (1 : Nat) ≤ 1 :=
  @c4_prefix_bound RelayUniversalLocation 1
    { parents := 0, interior := [Junction.Parachain 2125] } midDemo
    instsDemo 1 (by decide)

/-- Claim C5: early termination.  If the scan succeeds with `k < max_prefix`
consumed and instruction `k` exists, then that instruction is
non-origin-affecting, every earlier instruction was origin-affecting, and the
resolver delegates (without error) to the inner check with that instruction
still first in the remaining slice. -/
theorem c5_early_termination {lu : List Junction} {mp : Nat} {o o2 : MultiLocation}
    {insts : List Instruction} {k : Nat} {i : Instruction}
    (hscan : prefixScan lu mp o insts 0 = some (o2, k))
    (hk : k < mp) (hget : insts.get? k = some i) :
    isOriginAffecting i = false ∧
    (∀ m j, m < k → insts.get? m = some j → isOriginAffecting j = true) ∧
    (∀ inner w p, shouldExecute inner lu mp o insts w p
        = inner o2 (i :: List.drop (k + 1) insts) w p) := by
  obtain ⟨-, hlast, hall⟩ := prefixScan_stops_aux insts o 0 o2 k hscan
  refine ⟨hlast hk i hget, ?_, ?_⟩
  · intro m j hm hj
    exact hall m j (by omega) hj
  · intro inner w p
    unfold shouldExecute
    rw [hscan]
    show inner o2 (List.drop k insts) w p = inner o2 (i :: List.drop (k + 1) insts) w p
    rw [drop_eq_cons_of_get insts k i hget]

/-- Witness for C5 on the demo message: the scan stops at the `ClearOrigin`
in position 2 while `max_prefix = 8`. -/
theorem c5_early_termination_witness :
    isOriginAffecting Instruction.ClearOrigin = false ∧
    (∀ m j, m < 2 → instsDemo.get? m = some j → isOriginAffecting j = true) ∧
    (∀ inner w p, shouldExecute inner RelayUniversalLocation 8
        { parents := 0, interior := [Junction.Parachain 2125] } instsDemo w p
        = inner resolvedDemo (Instruction.ClearOrigin :: List.drop 3 instsDemo) w p) :=
  @c5_early_termination RelayUniversalLocation 8
    { parents := 0, interior := [Junction.Parachain 2125] } resolvedDemo
    instsDemo 2 Instruction.ClearOrigin (by decide) (by decide) (by decide)

/-- Claim C6: post-scan delegation.  When the scan succeeds with corrected
origin `o2` after consuming `k` instructions, `should_execute` equals the
inner check applied to `o2`, the instruction suffix from index `k`, the same
weight and the same properties — its result is returned unchanged. -/
theorem c6_post_scan_delegation {lu : List Junction} {mp : Nat} {origin o2 : MultiLocation}
    {insts : List Instruction} {k : Nat}
    (hscan : prefixScan lu mp origin insts 0 = some (o2, k))
    (inner : MultiLocation → List Instruction → Weight → Properties →
      Except ProcessMessageError Unit)
    (w : Weight) (p : Properties) :
    shouldExecute inner lu mp origin insts w p = inner o2 (List.drop k insts) w p := by
  unfold shouldExecute
  rw [hscan]

/-- Witness for C6 with an inner barrier that fails with `BadFormat`: the
error is returned unchanged. -/
theorem c6_post_scan_delegation_witness :
    shouldExecute innerBad RelayUniversalLocation 8
      { parents := 0, interior := [Junction.Parachain 2125] } instsDemo w0 p0
    = innerBad resolvedDemo (List.drop 2 instsDemo) w0 p0 :=
  @c6_post_scan_delegation RelayUniversalLocation 8
    { parents := 0, interior := [Junction.Parachain 2125] } resolvedDemo instsDemo 2
    (by decide) innerBad w0 p0

/-- Claim C7: `UniversalOrigin` failure is `Unsupported` and atomic.  If the
scan reaches working origin `oW` after `k` consumed instructions and
instruction `k` is `UniversalOrigin g` whose rebasing arithmetic fails (no
global-consensus root in the local universal location, or `relative_to` /
`prepended_with` / `within_global` failure), the whole call returns
`Unsupported` for every inner barrier — the inner check is never consulted. -/
theorem c7_universal_origin_unsupported {lu : List Junction} {mp k : Nat}
    {origin oW : MultiLocation} {insts : List Instruction} {g : Junction}
    (htake : prefixScan lu mp origin (List.take k insts) 0 = some (oW, k))
    (hk : k < mp)
    (hget : insts.get? k = some (Instruction.UniversalOrigin g))
    (hfail : universalOriginCompute lu oW g = none) :
    ∀ inner w p, shouldExecute inner lu mp origin insts w p
      = Except.error ProcessMessageError.Unsupported := by
  intro inner w p
  have htake0 : prefixScan lu mp origin (List.take k insts) 0 = some (oW, 0 + k) := by
    simpa using htake
  have hext := prefixScan_extend k insts origin oW 0 htake0
  have hstep : resolveStep lu oW (Instruction.UniversalOrigin g) = ScanStep.unsupported := by
    simp [resolveStep, hfail]
  have hscan : prefixScan lu mp origin insts 0 = none := by
    rw [hext, drop_eq_cons_of_get insts k _ hget]
    exact prefixScan_err (by omega) hstep
  unfold shouldExecute
  rw [hscan]

/-- Witness for C7: a local universal location with no global-consensus root
makes the first `UniversalOrigin` instruction abort with `Unsupported`. -/
theorem c7_universal_origin_unsupported_witness :
    shouldExecute innerOk [] 1 { parents := 0, interior := [] }
      [Instruction.UniversalOrigin (Junction.GlobalConsensus NetworkId.Kusama)] w0 p0
    = Except.error ProcessMessageError.Unsupported :=
  @c7_universal_origin_unsupported [] 1 0 { parents := 0, interior := [] }
    { parents := 0, interior := [] }
    [Instruction.UniversalOrigin (Junction.GlobalConsensus NetworkId.Kusama)]
    (Junction.GlobalConsensus NetworkId.Kusama)
    (by decide) (by decide) (by decide) (by decide) innerOk w0 p0

/-- Counterexample to claim C8 as stated: a working origin whose interior is
already at the maximum arity (8 junctions) does NOT make `DescendOrigin` fail
when the appended junction list is empty — `append_with` only fails when the
combined length exceeds 8, so `DescendOrigin([])` is consumed and the resolver
returns the inner result `Ok(())`, not `Unsupported`. -/
theorem c8_descend_capacity_counterexample :
    shouldExecute innerOk RelayUniversalLocation 8
      { parents := 0, interior := List.replicate 8 Junction.OnlyChild }
      [Instruction.DescendOrigin []] w0 p0 = Except.ok () ∧
    (Except.ok () : Except ProcessMessageError Unit)
      ≠ Except.error ProcessMessageError.Unsupported := by
  constructor
  · rfl
  · intro h
    exact Except.noConfusion h

/-- Claim C8 (amended): whenever the scan reaches working origin `oW` after
`k` consumed instructions and instruction `k` is `DescendOrigin js` where
appending `js` would exceed the 8-junction interior capacity, the resolver
returns `Unsupported` (without truncating) for every inner barrier. -/
theorem c8_descend_capacity_unsupported {lu : List Junction} {mp k : Nat}
    {origin oW : MultiLocation} {insts : List Instruction} {js : List Junction}
    (htake : prefixScan lu mp origin (List.take k insts) 0 = some (oW, k))
    (hk : k < mp)
    (hget : insts.get? k = some (Instruction.DescendOrigin js))
    (hcap : maxJunctions < oW.interior.length + js.length) :
    ∀ inner w p, shouldExecute inner lu mp origin insts w p
      = Except.error ProcessMessageError.Unsupported := by
  intro inner w p
  have htake0 : prefixScan lu mp origin (List.take k insts) 0 = some (oW, 0 + k) := by
    simpa using htake
  have hext := prefixScan_extend k insts origin oW 0 htake0
  have happ : appendWith oW js = none := by
    unfold appendWith
    simp [hcap]
  have hstep : resolveStep lu oW (Instruction.DescendOrigin js) = ScanStep.unsupported := by
    simp [resolveStep, happ]
  have hscan : prefixScan lu mp origin insts 0 = none := by
    rw [hext, drop_eq_cons_of_get insts k _ hget]
    exact prefixScan_err (by omega) hstep
  unfold shouldExecute
  rw [hscan]

/-- Witness for the amended C8: appending one junction to a full 8-junction
interior aborts with `Unsupported`. -/
theorem c8_descend_capacity_unsupported_witness :
    shouldExecute innerOk RelayUniversalLocation 8
      { parents := 0, interior := List.replicate 8 Junction.OnlyChild }
      [Instruction.DescendOrigin [Junction.Parachain 1]] w0 p0
    = Except.error ProcessMessageError.Unsupported :=
  @c8_descend_capacity_unsupported RelayUniversalLocation 8 0
    { parents := 0, interior := List.replicate 8 Junction.OnlyChild }
    { parents := 0, interior := List.replicate 8 Junction.OnlyChild }
    [Instruction.DescendOrigin [Junction.Parachain 1]] [Junction.Parachain 1]
    (by decide) (by decide) (by decide) (by decide) innerOk w0 p0

/-- Claim C3: backward compatibility of the encoder.  Every location matching
shape 1 (`parents=0`, leading `Parachain`), shape 2 (`parents=1`, leading
`Parachain`) or shape 3 (`parents=1`, no leading `Parachain`) encodes
byte-for-byte the same under `NewDescribeFamily` as under the pre-extension
`DescribeFamily`, for any common suffix encoder. -/
theorem c3_backward_compatibility {l : MultiLocation}
    (h : shape1 l = true ∨ shape2 l = true ∨ shape3 l = true) :
    ∀ suffix, newDescribeFamily suffix l = describeFamily suffix l := by
  intro suffix
  obtain ⟨ps, ints⟩ := l
  rcases h with h | h | h
  · rw [shape1, Bool.and_eq_true] at h
    obtain ⟨h0, hlp⟩ := h
    have hps : ps = 0 := by simpa using h0
    subst hps
    cases ints with
    | nil => simp [leadingParachain] at hlp
    | cons j tl =>
        cases j <;> simp [leadingParachain] at hlp
        rfl
  · rw [shape2, Bool.and_eq_true] at h
    obtain ⟨h1, hlp⟩ := h
    have hps : ps = 1 := by simpa using h1
    subst hps
    cases ints with
    | nil => simp [leadingParachain] at hlp
    | cons j tl =>
        cases j <;> simp [leadingParachain] at hlp
        rfl
  · rw [shape3, Bool.and_eq_true] at h
    obtain ⟨h1, hlp⟩ := h
    have hps : ps = 1 := by simpa using h1
    subst hps
    have hlp2 : leadingParachain ints = false := by simpa using hlp
    cases ints with
    | nil => rfl
    | cons j tl =>
        cases j <;> simp [leadingParachain] at hlp2 <;> rfl

/-- Witness for C3: a shape-1 location encodes identically under both
encoders (with the trivial suffix encoder). -/
theorem c3_backward_compatibility_witness :
    newDescribeFamily suffixConst { parents := 0, interior := [Junction.Parachain 5] }
    = describeFamily suffixConst { parents := 0, interior := [Junction.Parachain 5] } :=
  @c3_backward_compatibility { parents := 0, interior := [Junction.Parachain 5] }
    (Or.inl (by decide)) suffixConst

/-- Claim C9: shape-4 encoding.  For `parents=0` with interior
`GlobalConsensus(network) :: Parachain(index) :: rest` where the suffix
encoder accepts `rest`, `NewDescribeFamily` returns exactly the concatenation
of the `b"UniversalLocation"` tag bytes, the network encoding, the
`b"Parachain"` tag bytes, the compact encoding of `index` and the
length-prefixed suffix bytes; and if the junction after `GlobalConsensus` is
absent or not a `Parachain`, it fails. -/
theorem c9_shape4_encoding (suffix : MultiLocation → Option (List Nat))
    (network : NetworkId) (index : Nat) (rest : List Junction) (sbytes : List Nat)
    (hsuffix : suffix { parents := 0, interior := rest } = some sbytes) :
    newDescribeFamily suffix
      { parents := 0,
        interior := Junction.GlobalConsensus network :: Junction.Parachain index :: rest }
      = some (universalLocationTag ++ encodeNetworkId network ++ parachainTag ++
          compactEncode index ++ encodeVecU8 sbytes) ∧
    (∀ j rest2, (∀ idx, j ≠ Junction.Parachain idx) →
      newDescribeFamily suffix
        { parents := 0, interior := Junction.GlobalConsensus network :: j :: rest2 } = none) ∧
    newDescribeFamily suffix { parents := 0, interior := [Junction.GlobalConsensus network] }
      = none := by
  refine ⟨?_, ?_, rfl⟩
  · simp [newDescribeFamily, hsuffix]
  · intro j rest2 hj
    cases j with
    | Parachain idx => exact absurd rfl (hj idx)
    | AccountId32 a b => rfl
    | PalletInstance a => rfl
    | GlobalConsensus a => rfl
    | Plurality a b => rfl
    | OnlyChild => rfl

/-- Witness for C9 at the demo's network and parachain index with the trivial
suffix encoder. -/
theorem c9_shape4_encoding_witness :
    newDescribeFamily suffixConst
      { parents := 0,
        interior := [Junction.GlobalConsensus NetworkId.Kusama, Junction.Parachain 2125] }
      = some (universalLocationTag ++ encodeNetworkId NetworkId.Kusama ++ parachainTag ++
          compactEncode 2125 ++ encodeVecU8 []) ∧
    (∀ j rest2, (∀ idx, j ≠ Junction.Parachain idx) →
      newDescribeFamily suffixConst
        { parents := 0, interior := Junction.GlobalConsensus NetworkId.Kusama :: j :: rest2 }
        = none) ∧
    newDescribeFamily suffixConst
      { parents := 0, interior := [Junction.GlobalConsensus NetworkId.Kusama] } = none :=
  c9_shape4_encoding suffixConst NetworkId.Kusama 2125 [] [] rfl

/-- Claim C10: encoder totality on rejection.  A location matching none of
the four recognized shapes is rejected with `none` for every suffix encoder —
no panic and no default encoding. -/
theorem c10_encoder_rejects {l : MultiLocation}
    (h1 : shape1 l = false) (h2 : shape2 l = false) (h3 : shape3 l = false)
    (h4 : shape4 l = false) :
    ∀ suffix, newDescribeFamily suffix l = none := by
  intro suffix
  obtain ⟨ps, ints⟩ := l
  cases ps with
  | zero =>
      cases ints with
      | nil => rfl
      | cons j tl =>
          cases j with
          | Parachain idx => simp [shape1, leadingParachain] at h1
          | GlobalConsensus n =>
              cases tl with
              | nil => rfl
              | cons j2 tl2 =>
                  cases j2 with
                  | Parachain idx2 => simp [shape4] at h4
                  | AccountId32 a b => rfl
                  | PalletInstance a => rfl
                  | GlobalConsensus a => rfl
                  | Plurality a b => rfl
                  | OnlyChild => rfl
          | AccountId32 a b => rfl
          | PalletInstance a => rfl
          | Plurality a b => rfl
          | OnlyChild => rfl
  | succ n =>
      cases n with
      | zero =>
          exfalso
          rw [shape2] at h2
          rw [shape3] at h3
          simp at h2 h3
          rw [h2] at h3
          simp at h3
      | succ m =>
          cases ints with
          | nil => rfl
          | cons j tl => cases j <;> rfl

/-- Witness for C10: a location with `parents = 2` is rejected. -/
theorem c10_encoder_rejects_witness :
    newDescribeFamily suffixConst { parents := 2, interior := [] } = none :=
  @c10_encoder_rejects { parents := 2, interior := [] }
    (by decide) (by decide) (by decide) (by decide) suffixConst
